import Mathlib

/-
Verification of the hotlog library (a thin convenience layer over a
structured-logging framework).

The development shallowly embeds the Python sources:
  * hotlog/filtering.py : verbosity-tiered context filtering and
    prefix stripping over field dictionaries,
  * hotlog/config.py and the configuration entry point of
    hotlog/__init__.py : the global verbosity / matcher store,
  * hotlog/__init__.py : the CLI renderer pipeline (matcher dispatch,
    default level formatting, YAML context block, live-buffering sink),
    the ToolMatch matcher, the LiveLogger handle and the live_logging
    scoped session,
  * hotlog/verbosity.py : the verbosity resolver; this module is not
    present in the source tree (only its tests reference it), so it is
    modelled from the specification, as marked below.

Python dictionaries are embedded as association lists (`EventDict`) in
insertion order; dictionary values are embedded by the scalar type
`Value` (strings, integers, booleans), which covers every value the
claims touch.  The process-global mutable state (verbosity level, live
context, message buffer) is made an explicit argument / explicit state
threading.
-/

/-- Scalar values stored in a log event's field dictionary.  Python log
calls pass arbitrary values; the claims only involve scalars, for which
truthiness and string conversion are embedded below. -/
inductive Value where
  | str (s : String)
  | int (n : Int)
  | bool (b : Bool)
  deriving DecidableEq, Repr

/-- Python truthiness of a `Value` (`bool(v)`): empty string, zero and
`False` are falsy. -/
def truthy : Value → Bool
  | Value.str s => !(s == "")
  | Value.int n => !(n == 0)
  | Value.bool b => b

/-- Python `str(v)` on a scalar `Value` (used by f-string interpolation
in the formatters). -/
def pyStr : Value → String
  | Value.str s => s
  | Value.int n => toString n
  | Value.bool b => if b then "True" else "False"

/-- A Python dict of context fields, in insertion order.  Keys are
unique in an actual dict; operations below mirror dict semantics on
association lists. -/
abbrev EventDict := List (String × Value)

/-- Python `s.startswith(p)` on the character lists of the strings. -/
def listStartsWith : List Char → List Char → Bool
  | _, [] => true
  | [], _ :: _ => false
  | c :: cs, d :: ds => c == d && listStartsWith cs ds

/-- Python `s.startswith(p)`. -/
def startswith (s p : String) : Bool :=
  listStartsWith s.data p.data

/-- Python `s.removeprefix(p)`: drop `p` from the front of `s` when `s`
starts with it, otherwise return `s` unchanged. -/
def removeprefix (s p : String) : String :=
  if startswith s p then String.mk (s.data.drop p.data.length) else s

/-- Python `k in d` for a dict embedded as an association list. -/
def containsKey (d : EventDict) (k : String) : Bool :=
  d.any fun kv => kv.1 == k

/-- Python `d.get(k)` / `d[k]` as an option (first occurrence). -/
def getValue (d : EventDict) (k : String) : Option Value :=
  (d.find? fun kv => kv.1 == k).map fun kv => kv.2

/-- Removal part of Python `d.pop(k, default)`: the dictionary without
key `k`.  Keys are unique in a dict, so removing every occurrence
agrees with dict semantics. -/
def eraseKey (d : EventDict) (k : String) : EventDict :=
  d.filter fun kv => !(kv.1 == k)

/-- Python `d[k] = v`: update the value at `k` in place when the key is
present (keeping its position, as dicts do), otherwise append the new
binding at the end. -/
def setKey : EventDict → String → Value → EventDict
  | [], k, v => [(k, v)]
  | (k', v') :: rest, k, v =>
    if k' == k then (k', v) :: rest else (k', v') :: setKey rest k v

/-- Keys of a field dictionary, in order. -/
def keysOf (d : EventDict) : List String :=
  d.map fun kv => kv.1

/- ----------------------------------------------------------------
hotlog/config.py and the default prefix taxonomy
---------------------------------------------------------------- -/

/-- `DEFAULT_PREFIXES` from hotlog/config.py (also duplicated as
`display_prefixes` inside `strip_prefixes_from_keys`). -/
def DEFAULT_PREFIXES : List String :=
  ["_verbose_", "_debug_", "_perf_", "_security_"]

/-- `set_verbosity_level` from hotlog/config.py: assigns the argument
to the module-global `_VERBOSITY_LEVEL` unchanged.  The stored global
is made the return value. -/
def set_verbosity_level (level : Int) : Int :=
  level

/- ----------------------------------------------------------------
hotlog/filtering.py
---------------------------------------------------------------- -/

/-- `filter_context_by_prefix` from hotlog/filtering.py (the identical
function also appears in hotlog/__init__.py).  The module-global
verbosity read by `get_verbosity_level()` is passed explicitly.
Level >= 2 returns the dictionary unchanged; otherwise the loop skips
`_verbose_`/`_debug_`-prefixed keys at level 0 and `_debug_`-prefixed
keys at level 1, keeping everything else. -/
def filter_context_by_prefix (verbosity_level : Int) (event_dict : EventDict) :
    EventDict :=
  if verbosity_level ≥ 2 then event_dict
  else
    event_dict.filter fun kv =>
      if verbosity_level == 0 then
        !(startswith kv.1 "_verbose_" || startswith kv.1 "_debug_")
      else if verbosity_level == 1 then
        !(startswith kv.1 "_debug_")
      else
        true

/-- The inner loop of `strip_prefixes_from_keys`: the first prefix of
`DEFAULT_PREFIXES` that matches is removed (the Python loop breaks on
the first match); with no match the key is unchanged. -/
def strip_key (key : String) : String :=
  match DEFAULT_PREFIXES.find? (fun p => startswith key p) with
  | some p => removeprefix key p
  | none => key

/-- `strip_prefixes_from_keys` from hotlog/filtering.py (also present
in hotlog/__init__.py): rebuilds the dictionary with cleaned keys via
`cleaned_dict[clean_key] = value`, so the embedding folds with dict
assignment semantics (`setKey`). -/
def strip_prefixes_from_keys (event_dict : EventDict) : EventDict :=
  event_dict.foldl (fun acc kv => setKey acc (strip_key kv.1) kv.2) []

/-- Whether a key begins with one of the taxonomy prefixes (the
property C8 asserts the displayed keys never have). -/
def has_taxonomy (k : String) : Bool :=
  DEFAULT_PREFIXES.any fun p => startswith k p

/- ----------------------------------------------------------------
Matchers (hotlog/__init__.py: LogMatcher, ToolMatch, renderer loop)
---------------------------------------------------------------- -/

/-- `LogMatcher` from hotlog/__init__.py: a predicate over
(level, event message, fields) and a formatter which may mutate the
fields (pop consumed keys) and return either a formatted string or
`None`.  The mutation is embedded by returning the updated fields.
The Python method names `matches` and `format` are kept, except that
`matches` is a Lean keyword and becomes `matchesFn`. -/
structure LogMatcher where
  matchesFn : String → String → EventDict → Bool
  format : String → String → EventDict → Option String × EventDict

/-- The matcher loop of `cli_renderer` (hotlog/__init__.py):
iterate matchers in order; when one's predicate matches, call its
formatter; a non-`None` result stops the loop, a `None` result
continues with the next matcher over the (possibly mutated) fields. -/
def dispatch (matchers : List LogMatcher) (level event_msg : String)
    (event_dict : EventDict) : Option String × EventDict :=
  match matchers with
  | [] => (none, event_dict)
  | m :: rest =>
    if m.matchesFn level event_msg event_dict then
      match m.format level event_msg event_dict with
      | (some s, d') => (some s, d')
      | (none, d') => dispatch rest level event_msg d'
    else
      dispatch rest level event_msg event_dict

/-- `ToolMatch` from hotlog/__init__.py.  The Python field `prefix` is
a Lean keyword, so it is embedded as `pfx`. -/
structure ToolMatch where
  event : String
  pfx : String
  level : String
  command_key : String
  tool_key : String

/-- `ToolMatch.matches`: the level and event name equal the configured
ones and the command key is present in the fields. -/
def ToolMatch.matchesFn (m : ToolMatch) (level event : String)
    (event_dict : EventDict) : Bool :=
  level == m.level && event == m.event && containsKey event_dict m.command_key

/-- `ToolMatch.format`: pops the command key (Python raises `KeyError`
when it is absent, which cannot happen after `matches`; the embedding
defaults to the empty string there), pops the tool key with default
`""`, and formats `prefix\[tool] => command` when the tool value is
truthy, else the bare command.  Both keys are removed in both
branches. -/
def ToolMatch.format (m : ToolMatch) (_level _event : String)
    (event_dict : EventDict) : Option String × EventDict :=
  let command := (getValue event_dict m.command_key).getD (Value.str "")
  let d1 := eraseKey event_dict m.command_key
  let tool_name := (getValue d1 m.tool_key).getD (Value.str "")
  let d2 := eraseKey d1 m.tool_key
  if truthy tool_name then
    (some ("[bold #888888]" ++ m.pfx ++ "\\[" ++ pyStr tool_name ++
      "] =>[/bold #888888] [blue]" ++ pyStr command ++ "[/blue]"), d2)
  else
    (some ("[blue]" ++ pyStr command ++ "[/blue]"), d2)

/-- A `ToolMatch` viewed as a `LogMatcher` (in Python, by inheritance). -/
def ToolMatch.toLogMatcher (m : ToolMatch) : LogMatcher :=
  ⟨m.matchesFn, m.format⟩

/- ----------------------------------------------------------------
Renderer pipeline (hotlog/__init__.py: cli_renderer and helpers)
---------------------------------------------------------------- -/

/-- `pre_process_log` from hotlog/__init__.py, dictionary part: pops
the internal structlog keys "timestamp", "level", "log_level" and
"event" (the message argument passes through unchanged). -/
def pre_process_log (event_dict : EventDict) : EventDict :=
  eraseKey (eraseKey (eraseKey (eraseKey event_dict "timestamp") "level")
    "log_level") "event"

/-- ASCII upper-casing of one character (embeds Python `str.upper` on
the method names "info", "debug", "warning", "error"). -/
def upChar (c : Char) : Char :=
  if 97 ≤ c.toNat ∧ c.toNat ≤ 122 then Char.ofNat (c.toNat - 32) else c

/-- Python `s.upper()` for ASCII strings (`method_name.upper()` in
`cli_renderer`). -/
def py_upper (s : String) : String :=
  String.mk (s.data.map upChar)

/-- Lexicographic order on character lists by code point, embedding the
key order of Python `sorted` on ASCII strings. -/
def listLe : List Char → List Char → Bool
  | [], _ => true
  | _ :: _, [] => false
  | a :: as, b :: bs =>
    if a.toNat < b.toNat then true
    else if b.toNat < a.toNat then false
    else listLe as bs

/-- Insertion step of sorting the context keys. -/
def insertByKey (p : String × Value) : EventDict → EventDict
  | [] => [p]
  | q :: rest =>
    if listLe p.1.data q.1.data then p :: q :: rest else q :: insertByKey p rest

/-- Sorting by key, embedding `yaml.safe_dump(..., sort_keys=True)`'s
key ordering. -/
def sortByKey : EventDict → EventDict
  | [] => []
  | p :: rest => insertByKey p (sortByKey rest)

/-- YAML scalar rendering of a context value (the embedding covers the
flat scalar dictionaries the claims are about). -/
def yaml_value : Value → String
  | Value.str s => s
  | Value.int n => toString n
  | Value.bool b => if b then "true" else "false"

/-- `format_context_yaml` from hotlog/__init__.py: the empty dict gives
`""`; otherwise a sorted-key block-style `key: value` listing, each
line indented by two spaces. -/
def format_context_yaml (event_dict : EventDict) : String :=
  if event_dict.isEmpty then ""
  else
    String.intercalate "\n"
      ((sortByKey event_dict).map fun kv => "  " ++ kv.1 ++ ": " ++ yaml_value kv.2)

/-- The `level_styles` mapping of `cli_renderer` with its
`"bold cyan"` fallback. -/
def level_style (level : String) : String :=
  if level == "INFO" then "blue"
  else if level == "WARNING" then "yellow"
  else if level == "ERROR" then "red"
  else if level == "DEBUG" then "magenta"
  else if level == "CRITICAL" then "white on red"
  else if level == "SUCCESS" then "green"
  else "bold cyan"

/-- The default message formatting of `cli_renderer` (used when no
matcher produced a string): DEBUG gets a `DEBUG` prefix tag,
WARNING/ERROR/CRITICAL get a `LEVEL:` tag, INFO/SUCCESS just the
styled message. -/
def default_format (level event_msg : String) : String :=
  let style := level_style level
  if level == "DEBUG" then
    "[" ++ style ++ "]DEBUG[/" ++ style ++ "] [" ++ style ++ "]" ++
      event_msg ++ "[/" ++ style ++ "]"
  else if level == "WARNING" || level == "ERROR" || level == "CRITICAL" then
    "[bold " ++ style ++ "]" ++ level ++ ":[/bold " ++ style ++ "] [" ++
      style ++ "]" ++ event_msg ++ "[/" ++ style ++ "]"
  else
    "[" ++ style ++ "]" ++ event_msg ++ "[/" ++ style ++ "]"

/-- The observable effect of one `cli_renderer` call: either the
message was appended to the live buffer (with its context text), or it
was printed (with the context block when that is non-empty). -/
inductive RenderOutput where
  | buffered (msg : String) (context_yaml : String)
  | printed (msg : String) (context : Option String)
  deriving DecidableEq, Repr

/-- `cli_renderer` from hotlog/__init__.py.  The module globals
`_VERBOSITY_LEVEL`, `_LIVE_CONTEXT` (abstracted to whether a live
context is active) and `_MATCHERS` are explicit arguments.  Steps, as
in the source: upper-case the method name, pop "event", pop the
`_live_` flag, remove internal keys, run the matcher loop, filter and
strip the remaining fields into the YAML context block, fall back to
default formatting, then decide between buffering (live flag set, live
context active, verbosity 0) and direct printing. -/
def cli_renderer (verbosity : Int) (live_active : Bool)
    (matchers : List LogMatcher) (method_name : String)
    (event_dict : EventDict) : RenderOutput :=
  let level := py_upper method_name
  let event_msg := match getValue event_dict "event" with
    | some v => pyStr v
    | none => ""
  let d0 := eraseKey event_dict "event"
  let is_live_message := (getValue d0 "_live_").getD (Value.bool false)
  let d1 := eraseKey d0 "_live_"
  let d2 := pre_process_log d1
  let pr := dispatch matchers level event_msg d2
  let d4 := strip_prefixes_from_keys ( filter_context_by_prefix verbosity pr.2)
  let context_yaml := format_context_yaml d4
  let log_msg := pr.1.getD (default_format level event_msg)
  if truthy is_live_message && live_active && verbosity == 0 then
    RenderOutput.buffered log_msg context_yaml
  else
    RenderOutput.printed log_msg
      (if context_yaml == "" then none else some context_yaml)

/- ----------------------------------------------------------------
Configuration entry point (hotlog/__init__.py: configure_logging)
---------------------------------------------------------------- -/

/-- The module-global configuration state written by
`configure_logging`. -/
structure GlobalConfig where
  verbosity : Int
  matchers : List LogMatcher

/-- `configure_logging` from hotlog/__init__.py: stores the verbosity
argument unchanged into `_VERBOSITY_LEVEL` and replaces `_MATCHERS`
wholesale with `matchers or []`.  The stored state is returned. -/
def configure_logging (verbosity : Int)
    (matchers : Option (List LogMatcher)) : GlobalConfig :=
  ⟨verbosity, matchers.getD []⟩

/- ----------------------------------------------------------------
Live session (hotlog/__init__.py: LiveLogger, live_logging)
---------------------------------------------------------------- -/

/-- `LiveLogger` from hotlog/__init__.py: a wrapper around the base
logger that remembers whether it was created in live mode. -/
structure LiveLogger where
  is_live_mode : Bool

/-- `LiveLogger.info` keyword handling: in live mode the call sets
`kwargs["_live_"] = True` before logging. -/
def LiveLogger.info_kwargs (l : LiveLogger) (kwargs : EventDict) : EventDict :=
  if l.is_live_mode then setKey kwargs "_live_" (Value.bool true) else kwargs

/-- `LiveLogger.debug` keyword handling (same tagging as `info`). -/
def LiveLogger.debug_kwargs (l : LiveLogger) (kwargs : EventDict) : EventDict :=
  if l.is_live_mode then setKey kwargs "_live_" (Value.bool true) else kwargs

/-- `LiveLogger.warning` keyword handling (same tagging as `info`). -/
def LiveLogger.warning_kwargs (l : LiveLogger) (kwargs : EventDict) : EventDict :=
  if l.is_live_mode then setKey kwargs "_live_" (Value.bool true) else kwargs

/-- `LiveLogger.error` keyword handling: errors are never tagged with
the live flag ("Errors should always be visible"). -/
def LiveLogger.error_kwargs (_l : LiveLogger) (kwargs : EventDict) : EventDict :=
  kwargs

/-- The event dictionary handed to the renderer by the structlog
pipeline for one call: the keyword fields plus the message under the
"event" key.  (The TimeStamper / log-level keys added by the other
processors are removed again by `pre_process_log`, so they are not
modelled.) -/
def make_event_dict (event : String) (kwargs : EventDict) : EventDict :=
  setKey kwargs "event" (Value.str event)

/-- One logging call made through a live-session handle. -/
inductive LogCall where
  | info (event : String) (kwargs : EventDict)
  | debug (event : String) (kwargs : EventDict)
  | warning (event : String) (kwargs : EventDict)
  | error (event : String) (kwargs : EventDict)

/-- Whether a call is an error-level call. -/
def LogCall.isError : LogCall → Bool
  | LogCall.error _ _ => true
  | _ => false

/-- The structlog method name of a call. -/
def call_method : LogCall → String
  | LogCall.info _ _ => "info"
  | LogCall.debug _ _ => "debug"
  | LogCall.warning _ _ => "warning"
  | LogCall.error _ _ => "error"

/-- The event message of a call. -/
def call_event : LogCall → String
  | LogCall.info e _ => e
  | LogCall.debug e _ => e
  | LogCall.warning e _ => e
  | LogCall.error e _ => e

/-- The keyword fields of a call after the `LiveLogger` method applied
its live tagging. -/
def tagged_kwargs (l : LiveLogger) : LogCall → EventDict
  | LogCall.info _ k => l.info_kwargs k
  | LogCall.debug _ k => l.debug_kwargs k
  | LogCall.warning _ k => l.warning_kwargs k
  | LogCall.error _ k => l.error_kwargs k

/-- The live-session part of the module state: whether `_LIVE_CONTEXT`
is set and the `_LIVE_MESSAGES` buffer. -/
structure LiveState where
  active : Bool
  buffer : List (String × String)
  deriving DecidableEq, Repr

/-- One logger call through a live handle: run the renderer; a
buffered result appends to `_LIVE_MESSAGES` and prints nothing, a
printed result leaves the state alone and emits the message line plus
the context block when present. -/
def run_live_call (v : Int) (ms : List LogMatcher) (l : LiveLogger)
    (st : LiveState) (c : LogCall) : LiveState × List String :=
  match cli_renderer v st.active ms (call_method c)
      (make_event_dict (call_event c) (tagged_kwargs l c)) with
  | RenderOutput.buffered m cy => (⟨st.active, st.buffer ++ [(m, cy)]⟩, [])
  | RenderOutput.printed m co => (st, m :: co.toList)

/-- A sequence of calls through a live handle, threading the state and
collecting everything printed. -/
def run_live_calls (v : Int) (ms : List LogMatcher) (l : LiveLogger) :
    LiveState → List LogCall → LiveState × List String
  | st, [] => (st, [])
  | st, c :: cs =>
    let r := run_live_call v ms l st c
    let rest := run_live_calls v ms l r.1 cs
    (rest.1, r.2 ++ rest.2)

/-- `live_logging` from hotlog/__init__.py, as a whole-scope function.
`calls` are the body's calls that actually ran and `_raised` records
whether the body then raised; the cleanup at verbosity 0 sits in a
`finally`, so it runs identically in both cases (the definition does
not consult `_raised`).  At verbosity 0: clear the buffer, activate the
transient live display (its contents never reach the normal output),
hand the body a live-mode handle, and on exit deactivate the display
and clear the buffer.  At verbosity >= 1: print the status message
once, hand the body a non-live handle, and change nothing on exit.
The result is the final state and every line printed to the console
during the scope. -/
def live_logging (message : String) (v : Int) (ms : List LogMatcher)
    (st0 : LiveState) (calls : List LogCall) (_raised : Bool) :
    LiveState × List String :=
  if v == 0 then
    let r := run_live_calls v ms ⟨true⟩ ⟨true, []⟩ calls
    (⟨false, []⟩, r.2)
  else
    let r := run_live_calls v ms ⟨false⟩ st0 calls
    (r.1, ("[bold blue]" ++ message ++ "[/bold blue]") :: r.2)

/- ----------------------------------------------------------------
Plain content of rendered markup (verification device)
---------------------------------------------------------------- -/

/-- State machine stripping rich markup from rendered text, to state
claims about plain content: `[...]` style tags are removed, the escape
`\[` renders as a literal `[`, everything else passes through.  The
state is 0 outside a tag, 1 inside a tag, 2 after a backslash. -/
def strip_markup : Nat → List Char → List Char
  | _, [] => []
  | st, c :: rest =>
    if st == 1 then
      (if c == ']' then strip_markup 0 rest else strip_markup 1 rest)
    else if st == 2 then
      (if c == '[' then '[' :: strip_markup 0 rest
       else '\\' :: c :: strip_markup 0 rest)
    else if c == '\\' then strip_markup 2 rest
    else if c == '[' then strip_markup 1 rest
    else c :: strip_markup 0 rest

/-- Plain (style-free) content of a rendered string. -/
def render_plain (s : String) : String :=
  String.mk (strip_markup 0 s.data)

/-- A string free of markup-significant characters, so that it appears
verbatim in the plain content. -/
def markup_free (s : String) : Bool :=
  s.data.all fun ch => !(ch == '[') && !(ch == '\\')

/- ----------------------------------------------------------------
Verbosity resolver (hotlog/verbosity.py)
---------------------------------------------------------------- -/

/-- Clamp an integer level to the interval [0, 2]
(`max(0, min(2, level))`). -/
def clamp02 (n : Int) : Int :=
  max 0 (min 2 n)

/-- Digits-only parse of a character list into a number. -/
def digitsToNat : List Char → Option Nat
  | [] => none
  | cs =>
    cs.foldl
      (fun acc c =>
        match acc with
        | none => none
        | some n =>
          if 48 ≤ c.toNat ∧ c.toNat ≤ 57 then some (n * 10 + (c.toNat - 48))
          else none)
      (some 0)

/-- Python `int(s)` on an optionally-signed decimal literal, as an
option (`None` embeds the `ValueError` path). -/
def parse_int (s : String) : Option Int :=
  match s.data with
  | '-' :: rest => (digitsToNat rest).map fun n => -(n : Int)
  | l => (digitsToNat l).map fun n => (n : Int)

/-- Modelled from the spec: `get_verbosity_from_env` of
hotlog/verbosity.py, which is missing from the sources (only its tests
and example CLIs reference it).  Environment access is abstracted to
the override variable's value (when set), whether a runner-debug style
variable is truthy, and whether a generic CI-indicator variable is
present.  Per the spec: a parseable override returns immediately,
clamped to [0, 2]; an unparseable override falls through to the
heuristics; runner-debug gives 2, a CI indicator gives 1, otherwise
0. -/
def get_verbosity_from_env (override : Option String)
    (runner_debug_truthy : Bool) (ci_present : Bool) : Int :=
  match override with
  | some s =>
    match parse_int s with
    | some n => clamp02 n
    | none => if runner_debug_truthy then 2 else if ci_present then 1 else 0
  | none => if runner_debug_truthy then 2 else if ci_present then 1 else 0

/-- Modelled from the spec: `resolve_verbosity` of hotlog/verbosity.py,
which is missing from the sources.  Per the spec: the maximum of the
explicit CLI flag count and the environment-derived level, clamped to
[0, 2]. -/
def resolve_verbosity (cli_count : Int) (override : Option String)
    (runner_debug_truthy : Bool) (ci_present : Bool) : Int :=
  clamp02 (max cli_count (get_verbosity_from_env override runner_debug_truthy ci_present))

/-- A matcher whose predicate always matches and whose formatter
declines (returns `None`) without touching the fields. -/
def null_format_matcher : LogMatcher :=
  ⟨fun _ _ _ => true, fun _ _ d => (none, d)⟩

/-- A matcher that always matches and formats every message as "A". -/
def const_matcher_A : LogMatcher :=
  ⟨fun _ _ _ => true, fun _ _ d => (some "A", d)⟩

/-- A matcher that always matches and formats every message as "B". -/
def const_matcher_B : LogMatcher :=
  ⟨fun _ _ _ => true, fun _ _ d => (some "B", d)⟩

/-- `ToolMatch` with its Python default field values
(event "executing", prefix "tb", level "INFO", keys "command"/"tool"). -/
def tool_match_default : ToolMatch :=
  ⟨"executing", "tb", "INFO", "command", "tool"⟩

/- ----------------------------------------------------------------
Helper lemmas
---------------------------------------------------------------- -/

/-- A list starting with a pattern agrees with it on an initial
segment. -/
theorem listStartsWith_take (p : List Char) :
    ∀ l : List Char, listStartsWith l p = true → l.take p.length = p := by
  induction p with
  | nil => intro l _; simp
  | cons d ds ih =>
    intro l h
    cases l with
    | nil => simp [listStartsWith] at h
    | cons c cs =>
      simp only [listStartsWith, Bool.and_eq_true, beq_iff_eq] at h
      simp [h.1, ih cs h.2]

/-- No key starts with both the `_verbose_` and the `_debug_` prefix. -/
theorem verbose_debug_disjoint (s : String) :
    startswith s "_verbose_" = true → startswith s "_debug_" = false := by
  intro hv
  by_contra hd
  have hd' : startswith s "_debug_" = true := by
    cases h : startswith s "_debug_" with
    | true => rfl
    | false => exact absurd h hd
  have h1 := listStartsWith_take "_verbose_".data s.data hv
  have h2 := listStartsWith_take "_debug_".data s.data hd'
  have hmin : "_debug_".data.length ⊓ "_verbose_".data.length
      = "_debug_".data.length := by decide
  have h3 : (s.data.take "_verbose_".data.length).take "_debug_".data.length
      = s.data.take "_debug_".data.length := by
    rw [List.take_take, hmin]
  rw [h1, h2] at h3
  exact absurd h3 (by decide)

/- ----------------------------------------------------------------
C1: context filtering by verbosity tier
---------------------------------------------------------------- -/

/-- C1: for every fields dictionary and verbosity level v in {0,1,2},
the context filter keeps a field whose key starts with `_verbose_` iff
v >= 1, keeps a field whose key starts with `_debug_` iff v >= 2, and
keeps every other field (including `_perf_`/`_security_`-prefixed
keys) at every level. -/
theorem claim1_filter_visibility (v : Int) (hv : v = 0 ∨ v = 1 ∨ v = 2)
    (d : EventDict) (p : String × Value) (hp : p ∈ d) :
    (startswith p.1 "_verbose_" = true →
      (p ∈ filter_context_by_prefix v d ↔ 1 ≤ v)) ∧
    (startswith p.1 "_debug_" = true →
      (p ∈ filter_context_by_prefix v d ↔ 2 ≤ v)) ∧
    (startswith p.1 "_verbose_" = false → startswith p.1 "_debug_" = false →
      p ∈ filter_context_by_prefix v d) := by
  rcases hv with rfl | rfl | rfl
  · refine ⟨?_, ?_, ?_⟩
    · intro hverb
      simp [ filter_context_by_prefix, List.mem_filter, hp, hverb]
    · intro hdbg
      simp [ filter_context_by_prefix, List.mem_filter, hp, hdbg]
    · intro hverb hdbg
      simp [ filter_context_by_prefix, List.mem_filter, hp, hverb, hdbg]
  · refine ⟨?_, ?_, ?_⟩
    · intro hverb
      have hdbg := verbose_debug_disjoint p.1 hverb
      simp [ filter_context_by_prefix, List.mem_filter, hp, hdbg]
    · intro hdbg
      simp [ filter_context_by_prefix, List.mem_filter, hp, hdbg]
    · intro _ hdbg
      simp [ filter_context_by_prefix, List.mem_filter, hp, hdbg]
  · refine ⟨?_, ?_, ?_⟩
    · intro _
      simp [ filter_context_by_prefix, hp]
    · intro _
      simp [ filter_context_by_prefix, hp]
    · intro _ _
      simp [ filter_context_by_prefix, hp]

/-- Witness for C1 at a concrete input: a `_verbose_`-prefixed field is
kept at verbosity 0 exactly when 1 <= 0, i.e. never. -/
theorem claim1_filter_visibility_witness :
    (("_verbose_a", Value.str "x") ∈ filter_context_by_prefix 0
      [("_verbose_a", Value.str "x")] ↔ (1 : Int) ≤ 0) :=
  (claim1_filter_visibility 0 (Or.inl rfl) [("_verbose_a", Value.str "x")]
    ("_verbose_a", Value.str "x") (by simp)).1 (by decide)

/- ----------------------------------------------------------------
C10: out-of-range verbosity values
---------------------------------------------------------------- -/

/-- C10: a stored verbosity outside {0,1,2} — in particular any
negative value, which the configuration entry point stores unchanged —
makes the context filter the identity, so lowering verbosity below 0
reveals `_verbose_` and `_debug_` fields instead of hiding more. -/
theorem claim10_out_of_range_identity (v : Int)
    (h0 : v ≠ 0) (h1 : v ≠ 1) (h2 : v ≠ 2) (d : EventDict)
    (ms : Option (List LogMatcher)) :
    filter_context_by_prefix v d = d ∧ (configure_logging v ms).verbosity = v := by
  refine ⟨?_, rfl⟩
  by_cases hge : v ≥ 2
  · simp [ filter_context_by_prefix, hge]
  · simp [ filter_context_by_prefix, hge, h0, h1]

/-- Witness for C10 at verbosity -1: the `_verbose_`- and
`_debug_`-prefixed fields pass through unchanged. -/
theorem claim10_out_of_range_identity_witness :
    filter_context_by_prefix (-1)
        [("_verbose_a", Value.str "x"), ("_debug_b", Value.str "y")] =
      [("_verbose_a", Value.str "x"), ("_debug_b", Value.str "y")] ∧
    (configure_logging (-1) none).verbosity = -1 :=
  claim10_out_of_range_identity (-1) (by decide) (by decide) (by decide)
    [("_verbose_a", Value.str "x"), ("_debug_b", Value.str "y")] none

/- ----------------------------------------------------------------
C5: the configuration entry point does not clamp
---------------------------------------------------------------- -/

/-- Counterexample to C5 as stated: passing verbosity 5 to the
configuration entry point stores 5, which is not in [0,2]; the
module-level setter behaves the same. -/
theorem claim5_counterexample :
    (configure_logging 5 none).verbosity = 5 ∧
    ¬((configure_logging 5 none).verbosity ≤ 2) ∧
    set_verbosity_level 5 = 5 ∧ ¬(set_verbosity_level 5 ≤ 2) :=
  ⟨rfl, by decide, rfl, by decide⟩

/-- C5 amended: the configuration entry point stores every integer
verbosity unchanged — no clamping occurs — and never rejects a value
(the assignment is total); the same holds for `set_verbosity_level`. -/
theorem claim5_no_clamping (v : Int) (ms : Option (List LogMatcher)) :
    (configure_logging v ms).verbosity = v ∧ set_verbosity_level v = v :=
  ⟨rfl, rfl⟩

/- ----------------------------------------------------------------
Dictionary-operation lemmas
---------------------------------------------------------------- -/

/-- Unfolding `getValue` over a cons cell. -/
theorem getValue_cons (a : String) (b : Value) (rest : EventDict) (k : String) :
    getValue ((a, b) :: rest) k = if a == k then some b else getValue rest k := by
  unfold getValue
  rw [List.find?_cons]
  cases h : (a == k) <;> simp [h]

/-- Unfolding `eraseKey` over a cons cell. -/
theorem eraseKey_cons (a : String) (b : Value) (rest : EventDict) (k : String) :
    eraseKey ((a, b) :: rest) k =
      if a == k then eraseKey rest k else (a, b) :: eraseKey rest k := by
  unfold eraseKey
  rw [List.filter_cons]
  cases h : (a == k) <;> simp [h]

/-- Looking up the key just set returns the new value. -/
theorem getValue_setKey_self (d : EventDict) (k : String) (v : Value) :
    getValue (setKey d k v) k = some v := by
  induction d with
  | nil => simp [setKey, getValue_cons]
  | cons kv rest ih =>
    obtain ⟨a, b⟩ := kv
    by_cases hak : (a == k) = true
    · simp [setKey, hak, getValue_cons]
    · simp only [Bool.not_eq_true] at hak
      simp [setKey, hak, getValue_cons, ih]

/-- Setting one key leaves lookups of other keys unchanged. -/
theorem getValue_setKey_ne (d : EventDict) (k k' : String) (v : Value)
    (h : k ≠ k') : getValue (setKey d k' v) k = getValue d k := by
  have hkk : (k' == k) = false := beq_eq_false_iff_ne.mpr fun he => h he.symm
  induction d with
  | nil => simp [setKey, getValue_cons, hkk, getValue]
  | cons kv rest ih =>
    obtain ⟨a, b⟩ := kv
    by_cases hak : (a == k') = true
    · have ha : a = k' := by simpa using hak
      subst ha
      simp [setKey, hak, getValue_cons, hkk]
    · simp only [Bool.not_eq_true] at hak
      simp only [setKey, hak, if_false, getValue_cons]
      cases hk : (a == k) <;> simp [getValue_cons, hk, ih]

/-- Erasing one key leaves lookups of other keys unchanged. -/
theorem getValue_eraseKey_ne (d : EventDict) (k k' : String) (h : k ≠ k') :
    getValue (eraseKey d k') k = getValue d k := by
  induction d with
  | nil => rfl
  | cons kv rest ih =>
    obtain ⟨a, b⟩ := kv
    by_cases hak : (a == k') = true
    · have ha : a = k' := by simpa using hak
      subst ha
      have hk : (a == k) = false := beq_eq_false_iff_ne.mpr fun he => h he.symm
      simp [eraseKey_cons, hak, getValue_cons, hk, ih]
    · simp only [Bool.not_eq_true] at hak
      simp only [eraseKey_cons, hak, if_false]
      cases hk : (a == k) <;> simp [getValue_cons, hk, ih]

/- ----------------------------------------------------------------
Renderer sink lemmas
---------------------------------------------------------------- -/

/-- The renderer buffers exactly when the popped live flag is truthy,
a live context is active and the verbosity is 0. -/
theorem cli_renderer_buffered_iff (v : Int) (la : Bool)
    (ms : List LogMatcher) (mn : String) (d : EventDict) :
    (∃ m c, cli_renderer v la ms mn d = RenderOutput.buffered m c) ↔
      (truthy ((getValue (eraseKey d "event") "_live_").getD (Value.bool false)) = true ∧
        la = true ∧ v = 0) := by
  simp only [cli_renderer]
  by_cases hc :
      (truthy ((getValue (eraseKey d "event") "_live_").getD (Value.bool false)) &&
        la && v == 0) = true
  · rw [if_pos hc]
    simp only [Bool.and_eq_true, beq_iff_eq] at hc
    constructor
    · intro _
      exact ⟨hc.1.1, hc.1.2, hc.2⟩
    · intro _
      exact ⟨_, _, rfl⟩
  · rw [if_neg hc]
    simp only [Bool.and_eq_true, beq_iff_eq] at hc
    constructor
    · rintro ⟨m, c, hmc⟩
      exact absurd hmc (by simp)
    · rintro ⟨h1, h2, h3⟩
      exact absurd ⟨⟨h1, h2⟩, h3⟩ hc

/-- When the buffering condition fails, the renderer prints the message
directly, attaching the context block exactly when it is non-empty. -/
theorem cli_renderer_printed (v : Int) (la : Bool) (ms : List LogMatcher)
    (mn : String) (d : EventDict)
    (h : ¬(truthy ((getValue (eraseKey d "event") "_live_").getD (Value.bool false)) = true ∧
      la = true ∧ v = 0)) :
    ∃ m co, cli_renderer v la ms mn d = RenderOutput.printed m co ∧
      ∀ c, co = some c → c ≠ "" := by
  simp only [cli_renderer]
  have hc :
      ¬((truthy ((getValue (eraseKey d "event") "_live_").getD (Value.bool false)) &&
        la && v == 0) = true) := by
    intro hcond
    simp only [Bool.and_eq_true, beq_iff_eq] at hcond
    exact h ⟨hcond.1.1, hcond.1.2, hcond.2⟩
  rw [if_neg hc]
  refine ⟨_, _, rfl, ?_⟩
  intro c hco
  split at hco
  · exact absurd hco (by simp)
  · rename_i hyaml
    injection hco with hco
    subst hco
    simp only [beq_iff_eq] at hyaml
    exact hyaml

/- ----------------------------------------------------------------
C2: live buffering decision and the error path
---------------------------------------------------------------- -/

/-- C2: a render call buffers the message (and prints nothing) iff the
live flag was set on the event AND a live session is active AND the
verbosity is 0; in every other case the rendered text is printed
directly, with the context block attached exactly when non-empty.
Calls through the live handle's error method never set the live flag,
so error-level messages are printed directly even at verbosity 0 with
a live session active. -/
theorem claim2_live_buffering (v : Int) (la : Bool) (ms : List LogMatcher) :
    (∀ (mn : String) (d : EventDict),
      ((∃ m c, cli_renderer v la ms mn d = RenderOutput.buffered m c) ↔
        (truthy ((getValue (eraseKey d "event") "_live_").getD (Value.bool false)) = true ∧
          la = true ∧ v = 0)) ∧
      (¬(truthy ((getValue (eraseKey d "event") "_live_").getD (Value.bool false)) = true ∧
          la = true ∧ v = 0) →
        ∃ m co, cli_renderer v la ms mn d = RenderOutput.printed m co ∧
          ∀ c, co = some c → c ≠ "")) ∧
    (∀ (handle : LiveLogger) (ev : String) (kwargs : EventDict),
      getValue kwargs "_live_" = none →
      ∃ m co, cli_renderer v la ms "error"
          (make_event_dict ev (LiveLogger.error_kwargs handle kwargs)) =
        RenderOutput.printed m co) := by
  refine ⟨fun mn d => ⟨cli_renderer_buffered_iff v la ms mn d,
    cli_renderer_printed v la ms mn d⟩, ?_⟩
  intro handle ev kwargs hk
  have hlive : getValue (eraseKey (make_event_dict ev
      (LiveLogger.error_kwargs handle kwargs)) "event") "_live_" = none := by
    rw [getValue_eraseKey_ne _ _ _ (by decide)]
    unfold LiveLogger.error_kwargs make_event_dict
    rw [getValue_setKey_ne _ _ _ _ (by decide)]
    exact hk
  obtain ⟨m, co, hpr, _⟩ := cli_renderer_printed v la ms "error"
    (make_event_dict ev (LiveLogger.error_kwargs handle kwargs))
    (by rw [hlive]; rintro ⟨h1, -, -⟩; exact absurd h1 (by decide))
  exact ⟨m, co, hpr⟩

/-- Witness for C2: at verbosity 0 with a live session active, a
live-tagged info event is buffered, while an error call through the
live handle is printed. -/
theorem claim2_live_buffering_witness :
    (∃ m c, cli_renderer 0 true [] "info"
        [("event", Value.str "x"), ("_live_", Value.bool true)] =
      RenderOutput.buffered m c) ∧
    (∃ m co, cli_renderer 0 true [] "error"
        (make_event_dict "boom" (LiveLogger.error_kwargs ⟨true⟩ [])) =
      RenderOutput.printed m co) :=
  ⟨((claim2_live_buffering 0 true []).1 "info"
      [("event", Value.str "x"), ("_live_", Value.bool true)]).1.mpr
    ⟨by decide, rfl, rfl⟩,
   (claim2_live_buffering 0 true []).2 ⟨true⟩ "boom" [] rfl⟩

/- ----------------------------------------------------------------
C3: live session scope exit
---------------------------------------------------------------- -/

/-- A non-error call through a live-mode handle carries the live flag. -/
theorem tagged_kwargs_live (l : LiveLogger) (hl : l.is_live_mode = true)
    (c : LogCall) (hc : c.isError = false) :
    getValue (tagged_kwargs l c) "_live_" = some (Value.bool true) := by
  cases c with
  | info e k =>
    simp [tagged_kwargs, LiveLogger.info_kwargs, hl, getValue_setKey_self]
  | debug e k =>
    simp [tagged_kwargs, LiveLogger.debug_kwargs, hl, getValue_setKey_self]
  | warning e k =>
    simp [tagged_kwargs, LiveLogger.warning_kwargs, hl, getValue_setKey_self]
  | error e k => simp [LogCall.isError] at hc

/-- The live flag as the renderer sees it for a non-error call through
a live-mode handle. -/
theorem live_flag_of_call (l : LiveLogger) (hl : l.is_live_mode = true)
    (c : LogCall) (hc : c.isError = false) :
    (getValue (eraseKey (make_event_dict (call_event c) (tagged_kwargs l c))
        "event") "_live_").getD (Value.bool false) = Value.bool true := by
  rw [getValue_eraseKey_ne _ _ _ (by decide)]
  unfold make_event_dict
  rw [getValue_setKey_ne _ _ _ _ (by decide)]
  rw [tagged_kwargs_live l hl c hc]
  rfl

/-- At verbosity 0 with the live context active, a non-error call
through the live handle appends to the buffer and prints nothing. -/
theorem run_live_call_buffers (ms : List LogMatcher) (st : LiveState)
    (c : LogCall) (hst : st.active = true) (hc : c.isError = false) :
    ∃ m cy, run_live_call 0 ms ⟨true⟩ st c =
      (⟨true, st.buffer ++ [(m, cy)]⟩, []) := by
  obtain ⟨m, cy, hr⟩ := (cli_renderer_buffered_iff 0 st.active ms
    (call_method c) (make_event_dict (call_event c)
      (tagged_kwargs ⟨true⟩ c))).mpr
    ⟨by rw [live_flag_of_call ⟨true⟩ rfl c hc]; rfl, hst, rfl⟩
  refine ⟨m, cy, ?_⟩
  unfold run_live_call
  rw [hr, hst]

/-- Folding non-error calls at verbosity 0 keeps the live context
active and prints nothing. -/
theorem run_live_calls_v0 (ms : List LogMatcher) :
    ∀ (calls : List LogCall) (st : LiveState), st.active = true →
    (∀ c ∈ calls, c.isError = false) →
    (run_live_calls 0 ms ⟨true⟩ st calls).1.active = true ∧
      (run_live_calls 0 ms ⟨true⟩ st calls).2 = [] := by
  intro calls
  induction calls with
  | nil => exact fun st hst _ => ⟨hst, rfl⟩
  | cons c cs ih =>
    intro st hst hall
    obtain ⟨m, cy, hr⟩ := run_live_call_buffers ms st c hst
      (hall c (List.mem_cons_self c cs))
    have hrest := ih ⟨true, st.buffer ++ [(m, cy)]⟩ rfl
      fun x hx => hall x (List.mem_cons_of_mem c hx)
    simp only [run_live_calls, hr]
    exact ⟨hrest.1, by simp [hrest.2]⟩

/-- At verbosity other than 0 every call through the handle is printed
immediately (at least one line) and the live state is untouched. -/
theorem run_live_call_ne0 (v : Int) (hv : ¬v = 0) (ms : List LogMatcher)
    (l : LiveLogger) (st : LiveState) (c : LogCall) :
    (run_live_call v ms l st c).1 = st ∧
      1 ≤ (run_live_call v ms l st c).2.length := by
  obtain ⟨m, co, hr, -⟩ := cli_renderer_printed v st.active ms
    (call_method c) (make_event_dict (call_event c) (tagged_kwargs l c))
    (by rintro ⟨-, -, h0⟩; exact hv h0)
  unfold run_live_call
  rw [hr]
  simp

/-- Folding calls at verbosity other than 0 leaves the state unchanged
and prints at least one line per call. -/
theorem run_live_calls_ne0 (v : Int) (hv : ¬v = 0) (ms : List LogMatcher)
    (l : LiveLogger) :
    ∀ (calls : List LogCall) (st : LiveState),
    (run_live_calls v ms l st calls).1 = st ∧
      calls.length ≤ (run_live_calls v ms l st calls).2.length := by
  intro calls
  induction calls with
  | nil => exact fun st => ⟨rfl, by simp [run_live_calls]⟩
  | cons c cs ih =>
    intro st
    obtain ⟨hst, hlen⟩ := run_live_call_ne0 v hv ms l st c
    simp only [run_live_calls]
    refine ⟨by rw [(ih _).1, hst], ?_⟩
    have := (ih (run_live_call v ms l st c).1).2
    simp only [List.length_append, List.length_cons]
    omega

/-- C3: for every live session at verbosity 0, on scope exit — whether
the body returned normally or raised — the live display is deactivated
and the buffer cleared, and the body's non-error calls through the live
handle left no printed output; at verbosity >= 1 the same calls print
immediately (the status header plus at least one line per call) and
nothing is buffered (the ambient state is unchanged). -/
theorem claim3_live_scope (v : Int) (ms : List LogMatcher)
    (st0 : LiveState) (msg : String) (calls : List LogCall) (raised : Bool)
    (hcalls : ∀ c ∈ calls, c.isError = false) :
    (v = 0 →
      (live_logging msg v ms st0 calls raised).1 = ⟨false, []⟩ ∧
      (live_logging msg v ms st0 calls raised).2 = []) ∧
    (1 ≤ v →
      (live_logging msg v ms st0 calls raised).1 = st0 ∧
      calls.length + 1 ≤ (live_logging msg v ms st0 calls raised).2.length) := by
  constructor
  · intro h0
    subst h0
    have h := run_live_calls_v0 ms calls ⟨true, []⟩ rfl hcalls
    simp [live_logging, h.2]
  · intro h1
    have hv : ¬v = 0 := by omega
    have hne : ¬((v == 0) = true) := by simpa using hv
    obtain ⟨hst, hlen⟩ := run_live_calls_ne0 v hv ms ⟨false⟩ calls st0
    unfold live_logging
    rw [if_neg hne]
    refine ⟨hst, ?_⟩
    simp only [List.length_cons]
    omega

/-- Witness for C3: a concrete scope at verbosity 0 whose body raised
after one info call still ends deactivated with an empty buffer and no
printed output. -/
theorem claim3_live_scope_witness :
    (live_logging "Processing" 0 [] ⟨false, []⟩ [LogCall.info "step" []]
        true).1 = ⟨false, []⟩ ∧
    (live_logging "Processing" 0 [] ⟨false, []⟩ [LogCall.info "step" []]
        true).2 = [] :=
  (claim3_live_scope 0 [] ⟨false, []⟩ "Processing" [LogCall.info "step" []]
    true (by decide)).1 rfl

/- ----------------------------------------------------------------
C6: matcher precedence
---------------------------------------------------------------- -/

/-- Counterexample to C6 as stated: with a first matcher whose
predicate returns true but whose formatter returns `None`, the second
matcher's formatter IS invoked — swapping it for one with a different
output changes the dispatch result. -/
theorem claim6_counterexample :
    null_format_matcher.matchesFn "INFO" "e" [] = true ∧
    dispatch [null_format_matcher, const_matcher_A] "INFO" "e" [] ≠
      dispatch [null_format_matcher, const_matcher_B] "INFO" "e" [] := by
  refine ⟨rfl, ?_⟩
  intro h
  have hA : dispatch [null_format_matcher, const_matcher_A] "INFO" "e" [] =
      (some "A", []) := rfl
  have hB : dispatch [null_format_matcher, const_matcher_B] "INFO" "e" [] =
      (some "B", []) := rfl
  rw [hA, hB] at h
  simp at h

/-- C6 amended: when the first matcher's predicate returns true AND its
formatter returns a non-null string, dispatch stops there — the result
is fully determined by the first matcher, so the second matcher's
formatter is never invoked. -/
theorem claim6_first_matcher_wins (m1 m2 : LogMatcher) (l e : String)
    (d : EventDict) (s : String) (d' : EventDict)
    (hm : m1.matchesFn l e d = true) (hf : m1.format l e d = (some s, d')) :
    dispatch [m1, m2] l e d = (some s, d') := by
  simp [dispatch, hm, hf]

/-- Witness for the amended C6 at concrete matchers: the first
always-"A" matcher wins over the second matcher. -/
theorem claim6_first_matcher_wins_witness :
    dispatch [const_matcher_A, const_matcher_B] "INFO" "e" [] =
      (some "A", []) :=
  claim6_first_matcher_wins const_matcher_A const_matcher_B "INFO" "e" []
    "A" [] rfl rfl

/- ----------------------------------------------------------------
C4: the `_display_level` gate is absent from the renderer
---------------------------------------------------------------- -/

/-- Evaluation of the renderer at the failing input for C4: at
verbosity 0 an event carrying `_display_level = 1` is NOT skipped — the
message is printed and the `_display_level` key leaks into the rendered
context block.  (The repository's own tests,
tests/test_display_level.py, require the message to be absent at
verbosity 0 and the key never to appear: the renderer in the sources
contradicts them.) -/
theorem claim4_display_level_eval :
    cli_renderer 0 false [] "info"
        (make_event_dict "visible-message" [("_display_level", Value.int 1)]) =
      RenderOutput.printed "[blue]visible-message[/blue]"
        (some "  _display_level: 1") := by
  decide

/- ----------------------------------------------------------------
C9: verbosity resolver (modelled from the spec)
---------------------------------------------------------------- -/

/-- C9 (resolver modelled from the spec, hotlog/verbosity.py being
absent from the sources): the resolver returns the maximum of the CLI
flag count and the environment-derived level clamped to [0,2]; the
environment-derived level is the clamped override value when that
variable parses as an integer, falls through to the heuristics when it
does not parse, is 2 when runner-debug is truthy, 1 when a CI
indicator is present, and 0 otherwise; in particular CI alone gives 1
and runner-debug beats CI with 2. -/
theorem claim9_resolver (cli : Int) (override : Option String)
    (rd ci : Bool) :
    resolve_verbosity cli override rd ci =
      clamp02 (max cli (get_verbosity_from_env override rd ci)) ∧
    (∀ s n, override = some s → parse_int s = some n →
      get_verbosity_from_env override rd ci = clamp02 n) ∧
    (∀ s, override = some s → parse_int s = none →
      get_verbosity_from_env override rd ci =
        (if rd then 2 else if ci then 1 else 0)) ∧
    (override = none →
      get_verbosity_from_env override rd ci =
        (if rd then 2 else if ci then 1 else 0)) ∧
    get_verbosity_from_env none false true = 1 ∧
    get_verbosity_from_env none true true = 2 := by
  refine ⟨rfl, ?_, ?_, ?_, rfl, rfl⟩
  · intro s n hs hp
    subst hs
    simp [get_verbosity_from_env, hp]
  · intro s hs hp
    subst hs
    simp [get_verbosity_from_env, hp]
  · intro hs
    subst hs
    rfl

/-- Witness for C9: override "5" parses and is clamped to 2; the
resolved level from CLI count 1 under that environment is 2. -/
theorem claim9_resolver_witness :
    get_verbosity_from_env (some "5") false false = clamp02 5 ∧
    clamp02 5 = 2 ∧
    resolve_verbosity 1 (some "5") false false = 2 :=
  ⟨(claim9_resolver 1 (some "5") false false).2.1 "5" 5 rfl (by decide),
    by decide, by decide⟩

/- ----------------------------------------------------------------
Plain-content lemmas
---------------------------------------------------------------- -/

/-- String concatenation concatenates the character lists. -/
theorem str_data_append (a b : String) : (a ++ b).data = a.data ++ b.data :=
  rfl

/-- Characters that are not `[` or `\` pass through the markup
stripper verbatim. -/
theorem strip_markup_plain_pass :
    ∀ (l : List Char), (∀ ch ∈ l, ch ≠ '[' ∧ ch ≠ '\\') →
    ∀ rest, strip_markup 0 (l ++ rest) = l ++ strip_markup 0 rest := by
  intro l
  induction l with
  | nil => intro _ rest; rfl
  | cons c cs ih =>
    intro h rest
    have hcc := h c (List.mem_cons_self c cs)
    have h1 : (c == '\\') = false := beq_eq_false_iff_ne.mpr hcc.2
    have h2 : (c == '[') = false := beq_eq_false_iff_ne.mpr hcc.1
    have htail := ih (fun x hx => h x (List.mem_cons_of_mem c hx)) rest
    simp only [List.cons_append, strip_markup, h1, h2]
    simp [htail]

/-- Inside a tag, characters other than `]` are skipped. -/
theorem strip_markup_in_tag :
    ∀ (body : List Char), (∀ ch ∈ body, ch ≠ ']') →
    ∀ rest, strip_markup 1 (body ++ rest) = strip_markup 1 rest := by
  intro body
  induction body with
  | nil => intro _ rest; rfl
  | cons c cs ih =>
    intro h rest
    have hcc := h c (List.mem_cons_self c cs)
    have h1 : (c == ']') = false := beq_eq_false_iff_ne.mpr hcc
    have htail := ih (fun x hx => h x (List.mem_cons_of_mem c hx)) rest
    simp only [List.cons_append, strip_markup, h1]
    simp [htail]

/-- A complete `[...]` tag is removed by the markup stripper. -/
theorem strip_markup_tag (body : List Char) (h : ∀ ch ∈ body, ch ≠ ']')
    (rest : List Char) :
    strip_markup 0 ('[' :: (body ++ (']' :: rest))) = strip_markup 0 rest := by
  have h1 : strip_markup 0 ('[' :: (body ++ (']' :: rest))) =
      strip_markup 1 (body ++ (']' :: rest)) := rfl
  rw [h1, strip_markup_in_tag body h (']' :: rest)]
  rfl

/-- The escape `\[` renders as a literal `[`. -/
theorem strip_markup_escape (rest : List Char) :
    strip_markup 0 ('\\' :: ('[' :: rest)) = '[' :: strip_markup 0 rest :=
  rfl

/-- A markup-free string has no `[` and no `\` among its characters. -/
theorem markup_free_spec (s : String) (h : markup_free s = true) :
    ∀ ch ∈ s.data, ch ≠ '[' ∧ ch ≠ '\\' := by
  intro ch hch
  have := List.all_eq_true.mp h ch hch
  simpa using this

/-- Plain content of the tool-execution format line: the markup
and the escape collapse to `prefix[tool] => command`. -/
theorem render_plain_tool (pfx t c : String) (hp : markup_free pfx = true)
    (ht : markup_free t = true) (hc : markup_free c = true) :
    render_plain ("[bold #888888]" ++ pfx ++ "\\[" ++ t ++
        "] =>[/bold #888888] [blue]" ++ c ++ "[/blue]") =
      pfx ++ "[" ++ t ++ "] => " ++ c := by
  unfold render_plain
  have hdata : ("[bold #888888]" ++ pfx ++ "\\[" ++ t ++
      "] =>[/bold #888888] [blue]" ++ c ++ "[/blue]").data =
      "[bold #888888]".data ++ (pfx.data ++ ("\\[".data ++ (t.data ++
        ("] =>[/bold #888888] [blue]".data ++ (c.data ++ "[/blue]".data))))) := by
    simp [str_data_append, List.append_assoc]
  rw [hdata]
  show String.mk (strip_markup 0 (pfx.data ++ ("\\[".data ++ (t.data ++
      ("] =>[/bold #888888] [blue]".data ++ (c.data ++ "[/blue]".data)))))) =
    pfx ++ "[" ++ t ++ "] => " ++ c
  rw [strip_markup_plain_pass pfx.data (markup_free_spec pfx hp)]
  show String.mk (pfx.data ++ ('[' :: strip_markup 0 (t.data ++
      ("] =>[/bold #888888] [blue]".data ++ (c.data ++ "[/blue]".data))))) =
    pfx ++ "[" ++ t ++ "] => " ++ c
  rw [strip_markup_plain_pass t.data (markup_free_spec t ht)]
  show String.mk (pfx.data ++ ('[' :: (t.data ++ (']' :: (' ' :: ('=' ::
      ('>' :: (' ' :: strip_markup 0 (c.data ++ "[/blue]".data))))))))) =
    pfx ++ "[" ++ t ++ "] => " ++ c
  rw [strip_markup_plain_pass c.data (markup_free_spec c hc)]
  show String.mk (pfx.data ++ ('[' :: (t.data ++ (']' :: (' ' :: ('=' ::
      ('>' :: (' ' :: (c.data ++ ([] : List Char)))))))))) =
    pfx ++ "[" ++ t ++ "] => " ++ c
  rw [List.append_nil]
  have hr : (pfx ++ "[" ++ t ++ "] => " ++ c).data =
      pfx.data ++ ('[' :: (t.data ++ (']' :: (' ' :: ('=' ::
        ('>' :: (' ' :: c.data))))))) := by
    simp [str_data_append, List.append_assoc]
  rw [← hr]

/-- Plain content of the bare-command format line. -/
theorem render_plain_blue (c : String) (hc : markup_free c = true) :
    render_plain ("[blue]" ++ c ++ "[/blue]") = c := by
  unfold render_plain
  have hdata : ("[blue]" ++ c ++ "[/blue]").data =
      "[blue]".data ++ (c.data ++ "[/blue]".data) := by
    simp [str_data_append, List.append_assoc]
  rw [hdata]
  show String.mk (strip_markup 0 (c.data ++ "[/blue]".data)) = c
  rw [strip_markup_plain_pass c.data (markup_free_spec c hc)]
  show String.mk (c.data ++ ([] : List Char)) = c
  rw [List.append_nil]

/- ----------------------------------------------------------------
C7: the tool-execution matcher
---------------------------------------------------------------- -/

/-- Counterexample to C7 as stated: with the tool key present but bound
to the empty string (falsy), the formatter returns the bare command
instead of `prefix[tool] => command`. -/
theorem claim7_counterexample :
    containsKey [("command", Value.str "ls"), ("tool", Value.str "")]
      "tool" = true ∧
    (tool_match_default.format "INFO" "executing"
        [("command", Value.str "ls"), ("tool", Value.str "")]).1 =
      some "[blue]ls[/blue]" ∧
    render_plain "[blue]ls[/blue]" = "ls" ∧
    ("ls" : String) ≠ "tb[] => ls" :=
  ⟨by decide, by decide, by decide, by decide⟩

/-- C7 amended: the tool-execution matcher matches iff the level and
event name equal the configured ones and the command key is present;
its formatter removes the command and tool keys in both branches, and
its plain content is `prefix[tool] => command` when the tool field is
present with a truthy (non-empty) value, and the bare command when the
tool value is absent or falsy. -/
theorem claim7_tool_match (m : ToolMatch) (l e : String) (d : EventDict) :
    (m.matchesFn l e d = true ↔
      (l = m.level ∧ e = m.event ∧ containsKey d m.command_key = true)) ∧
    ((m.format l e d).2 = eraseKey (eraseKey d m.command_key) m.tool_key) ∧
    (∀ c t : String, getValue d m.command_key = some (Value.str c) →
      getValue (eraseKey d m.command_key) m.tool_key = some (Value.str t) →
      t ≠ "" → markup_free m.pfx = true → markup_free t = true →
      markup_free c = true →
      render_plain (((m.format l e d).1).getD "") =
        m.pfx ++ "[" ++ t ++ "] => " ++ c) ∧
    (∀ c : String, getValue d m.command_key = some (Value.str c) →
      truthy ((getValue (eraseKey d m.command_key) m.tool_key).getD
        (Value.str "")) = false →
      markup_free c = true →
      render_plain (((m.format l e d).1).getD "") = c) := by
  refine ⟨?_, ?_, ?_, ?_⟩
  · simp [ToolMatch.matchesFn, Bool.and_eq_true, beq_iff_eq, and_assoc]
  · simp only [ToolMatch.format]
    split <;> rfl
  · intro c t hcv htv ht0 hpm htm hcm
    have hne : (t == "") = false := beq_eq_false_iff_ne.mpr ht0
    simp only [ToolMatch.format, hcv, htv, Option.getD_some, truthy, hne,
      Bool.not_false, if_true, pyStr]
    exact render_plain_tool m.pfx t c hpm htm hcm
  · intro c hcv hfalsy hcm
    simp only [ToolMatch.format, hcv, Option.getD_some, hfalsy,
      Bool.false_eq_true, if_false, pyStr]
    exact render_plain_blue c hcm

/-- Witness for the amended C7 at the spec's end-to-end scenario: a
"pkg"-prefixed tool matcher renders `pkg[pytest] => pytest -v`. -/
theorem claim7_tool_match_witness :
    render_plain (((ToolMatch.format ⟨"executing", "pkg", "INFO", "command",
          "tool"⟩ "INFO" "executing"
        [("command", Value.str "pytest -v"), ("tool", Value.str "pytest")]).1).getD "") =
      "pkg" ++ "[" ++ "pytest" ++ "] => " ++ "pytest -v" :=
  (claim7_tool_match ⟨"executing", "pkg", "INFO", "command", "tool"⟩
    "INFO" "executing"
    [("command", Value.str "pytest -v"), ("tool", Value.str "pytest")]).2.2.1
    "pytest -v" "pytest" (by decide) (by decide) (by decide) (by decide)
    (by decide) (by decide)

/- ----------------------------------------------------------------
C8: stripping after filtering
---------------------------------------------------------------- -/

/-- Keys after a dict assignment: the assigned key plus the old keys. -/
theorem mem_keysOf_setKey (d : EventDict) (k : String) (v : Value)
    (x : String) :
    x ∈ keysOf (setKey d k v) ↔ x = k ∨ x ∈ keysOf d := by
  induction d with
  | nil => simp [setKey, keysOf]
  | cons kv rest ih =>
    obtain ⟨a, b⟩ := kv
    by_cases hak : (a == k) = true
    · have ha : a = k := by simpa using hak
      subst ha
      simp [setKey, keysOf]
    · simp only [Bool.not_eq_true] at hak
      simp only [setKey, hak, Bool.false_eq_true, if_false, keysOf,
        List.map_cons, List.mem_cons]
      simp only [keysOf] at ih
      rw [ih]
      tauto

/-- Keys produced by the stripping fold: the accumulator's keys plus
the stripped keys of the input. -/
theorem mem_keys_strip_fold :
    ∀ (d acc : EventDict) (x : String),
    x ∈ keysOf (d.foldl (fun acc kv => setKey acc (strip_key kv.1) kv.2) acc) ↔
      x ∈ keysOf acc ∨ ∃ kv ∈ d, strip_key kv.1 = x := by
  intro d
  induction d with
  | nil => simp
  | cons kv rest ih =>
    intro acc x
    simp only [List.foldl_cons]
    rw [ih, mem_keysOf_setKey]
    simp only [List.exists_mem_cons_iff]
    constructor
    · rintro ((heq | hacc) | hrest)
      · exact Or.inr (Or.inl heq.symm)
      · exact Or.inl hacc
      · exact Or.inr (Or.inr hrest)
    · rintro (hacc | (heq | hrest))
      · exact Or.inl (Or.inr hacc)
      · exact Or.inl (Or.inl heq.symm)
      · exact Or.inr hrest

/-- Keys of the stripped dictionary are exactly the stripped input
keys. -/
theorem mem_keysOf_strip (d : EventDict) (x : String) :
    x ∈ keysOf (strip_prefixes_from_keys d) ↔ ∃ kv ∈ d, strip_key kv.1 = x := by
  unfold strip_prefixes_from_keys
  rw [mem_keys_strip_fold]
  simp [keysOf]

/-- The context filter only removes entries. -/
theorem filter_context_subset (v : Int) (d : EventDict) :
    ∀ p ∈ filter_context_by_prefix v d, p ∈ d := by
  unfold filter_context_by_prefix
  split
  · exact fun p hp => hp
  · exact fun p hp => List.mem_of_mem_filter hp

/-- Stripping a key whose one-step-stripped forms are taxonomy-free
yields a taxonomy-free key. -/
theorem has_taxonomy_strip_key (k : String)
    (h : ∀ p ∈ DEFAULT_PREFIXES, startswith k p = true →
      has_taxonomy ( removeprefix k p) = false) :
    has_taxonomy (strip_key k) = false := by
  unfold strip_key
  cases hf : DEFAULT_PREFIXES.find? (fun p => startswith k p) with
  | some p =>
    exact h p (List.mem_of_find?_eq_some hf) (List.find?_some hf)
  | none =>
    have hall := List.find?_eq_none.mp hf
    unfold has_taxonomy
    rw [List.any_eq_false]
    intro p hp
    simpa using hall p hp

/-- Counterexample to C8 as stated: the key `_debug__verbose_x`
passes the filter at verbosity 2, stripping removes only the first
prefix, and the displayed key `_verbose_x` still begins with a
taxonomy prefix. -/
theorem claim8_counterexample :
    "_verbose_x" ∈ keysOf (strip_prefixes_from_keys
      ( filter_context_by_prefix 2 [("_debug__verbose_x", Value.str "v")])) ∧
    has_taxonomy "_verbose_x" = true :=
  ⟨by decide, by decide⟩

/-- C8 amended: for every fields dictionary in which no key consists of
a taxonomy prefix immediately followed by text that itself begins with
a taxonomy prefix, and every verbosity level, no displayed key of
strip_prefixes(filter_by_verbosity(fields, v)) begins with any
taxonomy prefix. -/
theorem claim8_no_leading_taxonomy (d : EventDict) (v : Int)
    (h : ∀ kv ∈ d, ∀ p ∈ DEFAULT_PREFIXES, startswith kv.1 p = true →
      has_taxonomy ( removeprefix kv.1 p) = false) :
    ∀ x ∈ keysOf (strip_prefixes_from_keys ( filter_context_by_prefix v d)),
      has_taxonomy x = false := by
  intro x hx
  rw [mem_keysOf_strip] at hx
  obtain ⟨kv, hkv, rfl⟩ := hx
  exact has_taxonomy_strip_key kv.1 (h kv (filter_context_subset v d kv hkv))

/-- Witness for the amended C8: at verbosity 1 the displayed keys of a
well-formed dictionary (`_verbose_source`, `records`) carry no
taxonomy prefix. -/
theorem claim8_no_leading_taxonomy_witness :
    "source" ∈ keysOf (strip_prefixes_from_keys ( filter_context_by_prefix 1
      [("_verbose_source", Value.str "data.csv"),
        ("records", Value.int 1000)])) ∧
    has_taxonomy "source" = false :=
  ⟨by decide, claim8_no_leading_taxonomy
    [("_verbose_source", Value.str "data.csv"), ("records", Value.int 1000)]
    1 (by decide) "source" (by decide)⟩
